import Mathlib

/-!
Verification of the mode checker (`checkModes` and its visitors) and of the
Apalache `check` response handling of this repository.

The mode checker itself is embedded from `effects/modeChecker.ts`
(`checkModes`, `ModeCheckerVisitor.exitOpDef`, `ModeFinderVisitor.exitConcrete`,
`ModeFinderVisitor.exitArrow`, `modeOrder`, `moreGeneralMode`).  The effect
data types, the classification predicates and the tree walkers live in files
that are not part of the excerpt (`effects/base.ts`, `effects/effectVisitor.ts`,
`IRVisitor.ts`, `tntIr.ts`, `IRprinting.ts`); those are modelled from the
specification and are marked `Modelled from the spec:` below.

JavaScript `Map` keys are `BigInt`s compared by value; they are embedded as
`Nat` keys over association lists with JS `Map.set` semantics (update in place
or append).  JS `Set` membership over effect payloads is embedded as structural
equality (`vbeq`).  A thrown JS exception is embedded as `Except.error`.
-/

/-- The six operator qualifiers.  Modelled from the spec: `tntIr.ts` is not in
the excerpt; the six values and their order are visible in `modeOrder` of the
source (`'staticval', 'staticdef', 'val', 'def', 'action', 'temporal'`). -/
inductive OpQualifier where
  | staticval
  | staticdef
  | val
  | def_
  | action
  | temporal
deriving DecidableEq, Repr, Fintype

/-- The string that each qualifier denotes in the TypeScript string union. -/
def OpQualifier.toStr : OpQualifier → String
  | OpQualifier.staticval => "staticval"
  | OpQualifier.staticdef => "staticdef"
  | OpQualifier.val => "val"
  | OpQualifier.def_ => "def"
  | OpQualifier.action => "action"
  | OpQualifier.temporal => "temporal"

/-- Source: `const modeOrder = ['staticval', 'staticdef', 'val', 'def', 'action', 'temporal']`. -/
def modeOrder : List String := ["staticval", "staticdef", "val", "def", "action", "temporal"]

/-- JS `Array.prototype.findIndex`: first index satisfying the predicate, `-1` if none. -/
def findIndexOf (l : List String) (x : String) : Int :=
  match l.findIdx? (fun e => e == x) with
  | some i => (i : Int)
  | none => -1

/-- Source: `moreGeneralMode (m1, m2)`: positions of `m1`, `m2` in `modeOrder`,
returning `p1 > p2 ? m1 : m2`. -/
def moreGeneralMode (m1 m2 : OpQualifier) : OpQualifier :=
  let p1 := findIndexOf modeOrder m1.toStr
  let p2 := findIndexOf modeOrder m2.toStr
  if p1 > p2 then m1 else m2

/-- Modelled from the spec: `Variables` of `effects/base.ts` is not in the
excerpt.  A payload is either a concrete set of variable names or a union of
such payloads. -/
inductive Variables where
  | concrete (vars : List String)
  | union (members : List Variables)
deriving Repr

/- Structural equality of payloads, embedding JS `Set` membership over
`Variables` values. -/
mutual
def vbeq : Variables → Variables → Bool
  | Variables.concrete xs, Variables.concrete ys => xs == ys
  | Variables.union vs, Variables.union ws => vbeqL vs ws
  | _, _ => false
def vbeqL : List Variables → List Variables → Bool
  | [], [] => true
  | v :: vs, w :: ws => vbeq v w && vbeqL vs ws
  | _, _ => false
end

/-- JS `Set.prototype.has` over a list-embedded set of payloads. -/
def setHas (s : List Variables) (v : Variables) : Bool :=
  s.any (fun w => vbeq w v)

/-- JS `Set.prototype.add` over a list-embedded set of payloads. -/
def setAdd (s : List Variables) (v : Variables) : List Variables :=
  if setHas s v then s else s ++ [v]

/-- Modelled from the spec: `ConcreteEffect` of `effects/base.ts` is not in the
excerpt.  A pair of read/update payloads; its classification is consumed via
externally supplied predicates. -/
structure ConcreteEffect where
  read : Variables
  update : Variables
deriving Repr

/-- Modelled from the spec: `Effect` of `effects/base.ts` is not in the
excerpt.  Tagged union of a concrete effect and an arrow effect (ordered
parameter effects plus a result effect). -/
inductive Effect where
  | concrete (ce : ConcreteEffect)
  | arrow (params : List Effect) (result : Effect)
deriving Repr

/- Whether a payload names at least one state variable, flattening unions. -/
mutual
def varsNonempty : Variables → Bool
  | Variables.concrete xs => !xs.isEmpty
  | Variables.union vs => varsListNonempty vs
def varsListNonempty : List Variables → Bool
  | [] => false
  | v :: vs => varsNonempty v || varsListNonempty vs
end

/-- Modelled from the spec: `isAction` of `effects/base.ts` is not in the
excerpt; the node denotes a state update, i.e. its update payload names at
least one variable. -/
def specIsAction (ce : ConcreteEffect) : Bool := varsNonempty ce.update

/-- Modelled from the spec: `isState` of `effects/base.ts` is not in the
excerpt; the node denotes a state read, i.e. its read payload names at least
one variable. -/
def specIsState (ce : ConcreteEffect) : Bool := varsNonempty ce.read

/-- Modelled from the spec: `isTemporal` of `effects/base.ts` is not in the
excerpt; a temporal combinator is not expressible in a read/update payload, so
the modelled predicate never holds. -/
def specIsTemporal (_ : ConcreteEffect) : Bool := false

/-- Source: `ModeFinderVisitor.exitConcrete`, parameterized by the externally
supplied classification predicates `pA` (`isAction`), `pT` (`isTemporal`) and
`pS` (`isState`). -/
def exitConcrete (pA pT pS : ConcreteEffect → Bool) (m : OpQualifier) (ce : ConcreteEffect) : OpQualifier :=
  let mode := if pA ce then OpQualifier.action
              else if pT ce then OpQualifier.temporal
              else if pS ce then OpQualifier.val
              else OpQualifier.staticval
  moreGeneralMode m mode

/-- Source: the `paramReads` collection loop of `ModeFinderVisitor.exitArrow`.
For a concrete parameter with a union-shaped read the source runs
`p.read.variables.forEach(paramReads.add)`: `Set.prototype.add` is passed as an
unbound callback, so as soon as the union has a member the call throws
`TypeError` (receiver `undefined`); this is embedded as `Except.error`.  An
empty union invokes the callback zero times and adds nothing. -/
def collectParamReads (acc : List Variables) : List Effect → Except String (List Variables)
  | [] => Except.ok acc
  | p :: ps =>
    match p with
    | Effect.concrete ce =>
      match ce.read with
      | Variables.union vs =>
        if vs.isEmpty then collectParamReads acc ps
        else Except.error "TypeError: Set.prototype.add called on incompatible receiver undefined"
      | v => collectParamReads (setAdd acc v) ps
    | _ => collectParamReads acc ps

/-- Source: `ModeFinderVisitor.exitArrow`.  A no-op unless the accumulator is
`staticdef` or `def`; otherwise collects parameter reads, sets the accumulator
to `staticdef`, and promotes to `def` after inspecting the result's read. -/
def exitArrow (m : OpQualifier) (params : List Effect) (result : Effect) : Except String OpQualifier :=
  if m ≠ OpQualifier.staticdef ∧ m ≠ OpQualifier.def_ then Except.ok m
  else
    match collectParamReads [] params with
    | Except.error msg => Except.error msg
    | Except.ok paramReads =>
      match result with
      | Effect.concrete ce =>
        match ce.read with
        | Variables.union vs =>
          if !(vs.all fun v => setHas paramReads v) then Except.ok OpQualifier.def_
          else if !(setHas paramReads (Variables.union vs)) then Except.ok OpQualifier.def_
          else Except.ok OpQualifier.staticdef
        | v =>
          if !(setHas paramReads v) then Except.ok OpQualifier.def_
          else Except.ok OpQualifier.staticdef
      | _ => Except.ok OpQualifier.staticdef

/- Modelled from the spec: `walkEffect` of `effects/effectVisitor.ts` is not
in the excerpt.  Bottom-up walk (children before parents): for an arrow the
parameters are walked in order, then the result, then the `exitArrow` hook
fires; a concrete node fires the `exitConcrete` hook.  The visitor state is the
`currentMode` accumulator, threaded explicitly. -/
mutual
def walkEffect (pA pT pS : ConcreteEffect → Bool) (m : OpQualifier) : Effect → Except String OpQualifier
  | Effect.concrete ce => Except.ok (exitConcrete pA pT pS m ce)
  | Effect.arrow ps r =>
    match walkParams pA pT pS m ps with
    | Except.error msg => Except.error msg
    | Except.ok m1 =>
      match walkEffect pA pT pS m1 r with
      | Except.error msg => Except.error msg
      | Except.ok m2 => exitArrow m2 ps r
def walkParams (pA pT pS : ConcreteEffect → Bool) (m : OpQualifier) : List Effect → Except String OpQualifier
  | [] => Except.ok m
  | e :: es =>
    match walkEffect pA pT pS m e with
    | Except.error msg => Except.error msg
    | Except.ok m1 => walkParams pA pT pS m1 es
end

/- The fold of an effect tree in which the `exitArrow` hook is skipped (acts
as the identity and never faults); stated by the claims as the observable
behaviour of the reducer, to be compared with `walkEffect`. -/
mutual
def foldConcrete (pA pT pS : ConcreteEffect → Bool) (m : OpQualifier) : Effect → OpQualifier
  | Effect.concrete ce => exitConcrete pA pT pS m ce
  | Effect.arrow ps r => foldConcrete pA pT pS (foldConcreteL pA pT pS m ps) r
def foldConcreteL (pA pT pS : ConcreteEffect → Bool) (m : OpQualifier) : List Effect → OpQualifier
  | [] => m
  | e :: es => foldConcreteL pA pT pS (foldConcrete pA pT pS m e) es
end

/-- The four accumulator values that concrete nodes can produce. -/
def isConcreteMode (m : OpQualifier) : Bool :=
  match m with
  | OpQualifier.staticval => true
  | OpQualifier.val => true
  | OpQualifier.action => true
  | OpQualifier.temporal => true
  | _ => false

/-- Modelled from the spec: `TntOpDef` of `tntIr.ts` is not in the excerpt.
The fields used by the mode checker: unique identifier, name and declared
qualifier. -/
structure TntOpDef where
  id : Nat
  name : String
  qualifier : OpQualifier
deriving Repr

/-- Modelled from the spec: `TntModule` of `tntIr.ts` is not in the excerpt.
An ordered sequence of operator definitions; `walkModule` of `IRVisitor.ts`
(also not in the excerpt) fires `exitOpDef` on each definition in document
order. -/
structure TntModule where
  defs : List TntOpDef
deriving Repr

/-- Modelled from the spec: `definitionToString` of `IRprinting.ts` is not in
the excerpt; it renders the definition for the diagnostic's location, naming
the definition. -/
def definitionToString (d : TntOpDef) : String := d.name

/-- Source: the `ErrorTree` diagnostic shape `{ location, message, children }`. -/
structure ErrorTree where
  location : String
  message : String
  children : List ErrorTree
deriving Repr

/-- JS `Map.prototype.get` over a `Nat`-keyed association list. -/
def mapLookup {α : Type} (l : List (Nat × α)) (k : Nat) : Option α :=
  match l with
  | [] => none
  | (k0, v0) :: rest => if k0 = k then some v0 else mapLookup rest k

/-- JS `Map.prototype.set` over a `Nat`-keyed association list: update in
place if the key is present, else append. -/
def mapSet {α : Type} (l : List (Nat × α)) (k : Nat) (v : α) : List (Nat × α) :=
  match l with
  | [] => [(k, v)]
  | (k0, v0) :: rest => if k0 = k then (k, v) :: rest else (k0, v0) :: mapSet rest k v

/-- The mutable state of `ModeCheckerVisitor`: its `errors` and `suggestions`
maps and the `currentMode` field of its `modeFinderVisitor`. -/
structure ModeCheckerState where
  errors : List (Nat × ErrorTree)
  suggestions : List (Nat × OpQualifier)
  currentMode : OpQualifier
deriving Repr

/-- The freshly constructed visitor: empty maps, accumulator `staticval`. -/
def initialState : ModeCheckerState :=
  { errors := [], suggestions := [], currentMode := OpQualifier.staticval }

/-- Source: `ModeCheckerVisitor.exitOpDef`.  Looks up the definition's effect
(a missing entry throws), folds it from the visitor's current accumulator,
resets the accumulator to `staticval`, then compares the inferred mode with the
declared qualifier and records an error or a suggestion. -/
def exitOpDef (pA pT pS : ConcreteEffect → Bool) (effects : List (Nat × Effect))
    (s : ModeCheckerState) (d : TntOpDef) : Except String ModeCheckerState :=
  match mapLookup effects d.id with
  | none => Except.error ("effect not found for definition " ++ d.name)
  | some eff =>
    match walkEffect pA pT pS s.currentMode eff with
    | Except.error msg => Except.error msg
    | Except.ok mode =>
      let s1 : ModeCheckerState := { s with currentMode := OpQualifier.staticval }
      if mode = d.qualifier then Except.ok s1
      else
        let generalMode := moreGeneralMode mode d.qualifier
        if generalMode = mode then
          let t : ErrorTree :=
            { location := "Checking modes for " ++ definitionToString d,
              message := "Expected " ++ mode.toStr ++ " mode, found: " ++ d.qualifier.toStr,
              children := [] }
          Except.ok { s1 with errors := mapSet s1.errors d.id t }
        else if generalMode = d.qualifier then
          Except.ok { s1 with suggestions := mapSet s1.suggestions d.id mode }
        else Except.ok s1

/-- The walk of `walkModule` restricted to what `ModeCheckerVisitor` observes:
`exitOpDef` fired on every definition in document order, threading the shared
visitor state. -/
def runDefs (pA pT pS : ConcreteEffect → Bool) (effects : List (Nat × Effect))
    (s : ModeCheckerState) : List TntOpDef → Except String ModeCheckerState
  | [] => Except.ok s
  | d :: ds =>
    match exitOpDef pA pT pS effects s d with
    | Except.error msg => Except.error msg
    | Except.ok s1 => runDefs pA pT pS effects s1 ds

/-- Source: `checkModes`.  Builds a fresh visitor, walks the module, and
returns `left errors` when the error map is non-empty, else
`right suggestions`. -/
def checkModes (pA pT pS : ConcreteEffect → Bool) (tntModule : TntModule)
    (effects : List (Nat × Effect)) :
    Except String (Sum (List (Nat × ErrorTree)) (List (Nat × OpQualifier))) :=
  match runDefs pA pT pS effects initialState tntModule.defs with
  | Except.error msg => Except.error msg
  | Except.ok s =>
    if s.errors.isEmpty then Except.ok (Sum.inr s.suggestions)
    else Except.ok (Sum.inl s.errors)

/-- Whether `exitOpDef` records an error for `d` (effect present, inferred
mode different from the declared qualifier, and the more general of the two is
the inferred mode). -/
def defProducesError (pA pT pS : ConcreteEffect → Bool) (effects : List (Nat × Effect))
    (d : TntOpDef) : Bool :=
  match mapLookup effects d.id with
  | none => false
  | some eff =>
    let inferred := foldConcrete pA pT pS OpQualifier.staticval eff
    (inferred != d.qualifier) && (moreGeneralMode inferred d.qualifier == inferred)

/-- Whether an `Except` value is a success. -/
def isOkE {ε α : Type} : Except ε α → Bool
  | Except.ok _ => true
  | Except.error _ => false

/-- The position of a qualifier in the six-value order, as the spec words it. -/
def modePos (m : OpQualifier) : Nat :=
  match m with
  | OpQualifier.staticval => 0
  | OpQualifier.staticdef => 1
  | OpQualifier.val => 2
  | OpQualifier.def_ => 3
  | OpQualifier.action => 4
  | OpQualifier.temporal => 5

/-- The order induced by `moreGeneralMode`: `a` is at most `b` when combining
them yields `b`. -/
def latticeLe (a b : OpQualifier) : Prop := moreGeneralMode a b = b

/-- Raw diagnostic messages of the parser frontend (`quintParserFrontend.ts`,
outside the excerpt); their structure is irrelevant here. -/
def ErrorMessage : Type := String

/-- Execution traces in the ITF format (`itf.ts`, outside the excerpt); their
structure is irrelevant here. -/
def ItfTrace : Type := String

/-- Source: the `VerifyError` shape `{ explanation, errors, traces? }` of
`quintVerifier.ts`; the optional `traces` field is an `Option`. -/
structure VerifyError where
  explanation : String
  errors : List ErrorMessage
  traces : Option (List ItfTrace)

/-- The parsed content of `response.failure.data` of `quintVerifier.ts`:
`raw` is the raw JSON text (used verbatim in the default branch), `msg` the
field read in the `UNEXPECTED` branch, and `pass_name`, `checking_result`,
`counterexamples` the fields read by `handleVerificationFailure`. -/
structure FailData where
  raw : String
  msg : String
  pass_name : String
  checking_result : String
  counterexamples : List ItfTrace

/-- Source: the `RunResponse` type of `quintVerifier.ts`: success, or a
failure carrying an error type tag and a data payload. -/
inductive RunResponse where
  | success
  | failure (errorType : String) (data : FailData)

/-- Source: `handleVerificationFailure` of `quintVerifier.ts`.  Unhandled pass
names and checking results throw (`Except.error`). -/
def handleVerificationFailure (d : FailData) : Except String VerifyError :=
  if d.pass_name = "BoundedChecker" then
    if d.checking_result = "Error" then
      Except.ok { explanation := "found a counterexample", errors := [],
                  traces := some d.counterexamples }
    else if d.checking_result = "Deadlock" then
      Except.ok { explanation := "reached a deadlock", errors := [],
                  traces := some d.counterexamples }
    else
      Except.error ("internal error: unhandled verification error " ++ d.checking_result)
  else
    Except.error ("internal error: unhandled verification error at pass " ++ d.pass_name)

/-- Source: the `check` operation built by `apalache` in `quintVerifier.ts`,
as a function of the response of `cmdExecutor.run`.  `Sum.inl` is the `left`
failure value, `Sum.inr ()` the `right(void 0)` success value; an uncaught JS
exception is `Except.error`. -/
def check (r : RunResponse) : Except String (Sum VerifyError Unit) :=
  match r with
  | RunResponse.success => Except.ok (Sum.inr ())
  | RunResponse.failure et d =>
    if et = "UNEXPECTED" then
      Except.ok (Sum.inl { explanation := d.msg, errors := [], traces := none })
    else if et = "PASS_FAILURE" then
      match handleVerificationFailure d with
      | Except.ok v => Except.ok (Sum.inl v)
      | Except.error msg => Except.error msg
    else
      Except.ok (Sum.inl { explanation := et ++ ": " ++ d.raw, errors := [], traces := none })

/-- Payload naming the single variable `x`. -/
def cxVarX : Variables := Variables.concrete ["x"]

/-- Payload naming the single variable `y`. -/
def cxVarY : Variables := Variables.concrete ["y"]

/-- Empty payload: no variables. -/
def cxNoVars : Variables := Variables.concrete []

/-- Concrete effect reading `x`, updating nothing. -/
def cxReadX : Effect := Effect.concrete { read := cxVarX, update := cxNoVars }

/-- Concrete effect reading `y`, updating nothing. -/
def cxReadY : Effect := Effect.concrete { read := cxVarY, update := cxNoVars }

/-- Concrete effect reading and updating nothing. -/
def cxPure : Effect := Effect.concrete { read := cxNoVars, update := cxNoVars }

/-- Two parameters with single concrete reads `x` and `y`. -/
def c3Params : List Effect := [cxReadX, cxReadY]

/-- A result effect whose read payload is the union of `x` and `y` — every
member is covered by `c3Params`. -/
def c3ResultUnion : Effect :=
  Effect.concrete { read := Variables.union [cxVarX, cxVarY], update := cxNoVars }

/-- The parameter-reachable set collected from `c3Params`. -/
def c3P : List Variables := [cxVarX, cxVarY]

/-- An arrow effect whose single parameter's concrete sub-effect touches no
variables (classifies `staticval`) and whose result reads `x`, a variable
absent from every parameter's read set. -/
def c4Arrow : Effect := Effect.arrow [cxPure] cxReadX

/-- A definition reading `x` but declared `staticval`. -/
def cxDef1 : TntOpDef := { id := 1, name := "foo", qualifier := OpQualifier.staticval }

/-- A definition whose identifier has no entry in `cxEffects`. -/
def cxDef2 : TntOpDef := { id := 2, name := "bar", qualifier := OpQualifier.val }

/-- An effect map holding an entry for `cxDef1` only. -/
def cxEffects : List (Nat × Effect) := [(1, cxReadX)]

/-- A module with the single definition `cxDef1`. -/
def cxModule : TntModule := { defs := [cxDef1] }

/-- A module with the single definition `cxDef2` (missing from `cxEffects`). -/
def cxMissingModule : TntModule := { defs := [cxDef2] }

/-- A module with zero definitions. -/
def cxEmptyModule : TntModule := { defs := [] }

/-- A structured pass-failure response whose checking-result tag is neither
counterexample-found nor deadlock. -/
def c10Bad : RunResponse :=
  RunResponse.failure "PASS_FAILURE"
    { raw := "raw", msg := "m", pass_name := "BoundedChecker",
      checking_result := "RuntimeError", counterexamples := [] }

instance (a b : OpQualifier) : Decidable (latticeLe a b) := by
  unfold latticeLe; infer_instance

/- `moreGeneralMode` always returns one of its two arguments. -/
theorem mG_or (a b : OpQualifier) : moreGeneralMode a b = a ∨ moreGeneralMode a b = b := by
  revert a b; decide

/- The four concrete-node modes are closed under `moreGeneralMode`. -/
theorem mG_concrete : ∀ a b : OpQualifier, isConcreteMode a = true → isConcreteMode b = true →
    isConcreteMode (moreGeneralMode a b) = true := by decide

/-- C7: for all qualifiers `a`, `b` in the six-value order
`staticval < staticdef < val < def < action < temporal`, `moreGeneralMode a b`
equals whichever of the two occupies the later position, `moreGeneralMode a a = a`,
the induced relation is total and transitive, `staticval` is the
identity/minimum and `temporal` the absorbing maximum. -/
theorem c7_mode_lattice :
    (∀ a b : OpQualifier, moreGeneralMode a b = (if modePos b < modePos a then a else b)) ∧
    (∀ a : OpQualifier, moreGeneralMode a a = a) ∧
    (∀ a b : OpQualifier, latticeLe a b ∨ latticeLe b a) ∧
    (∀ a b c : OpQualifier, latticeLe a b → latticeLe b c → latticeLe a c) ∧
    (∀ b : OpQualifier, moreGeneralMode OpQualifier.staticval b = b) ∧
    (∀ b : OpQualifier, moreGeneralMode OpQualifier.temporal b = OpQualifier.temporal) := by
  refine ⟨?_, ?_, ?_, ?_, ?_, ?_⟩ <;> decide

/-- Witness for C7: transitivity applied at `staticval ≤ val ≤ action`. -/
theorem c7_mode_lattice_witness :
    latticeLe OpQualifier.staticval OpQualifier.action :=
  c7_mode_lattice.2.2.2.1 OpQualifier.staticval OpQualifier.val OpQualifier.action
    (by decide) (by decide)

/-- C2: every `ConcreteEffect` node is classified by first-match precedence —
action if the action predicate holds, else temporal if the temporal predicate
holds, else val if the state-read predicate holds, else staticval — and the
accumulator after the node is `moreGeneralMode` of the accumulator before the
node and the classified value. -/
theorem c2_concrete_classification (pA pT pS : ConcreteEffect → Bool)
    (m : OpQualifier) (ce : ConcreteEffect) :
    (pA ce = true → exitConcrete pA pT pS m ce = moreGeneralMode m OpQualifier.action) ∧
    (pA ce = false → pT ce = true →
       exitConcrete pA pT pS m ce = moreGeneralMode m OpQualifier.temporal) ∧
    (pA ce = false → pT ce = false → pS ce = true →
       exitConcrete pA pT pS m ce = moreGeneralMode m OpQualifier.val) ∧
    (pA ce = false → pT ce = false → pS ce = false →
       exitConcrete pA pT pS m ce = moreGeneralMode m OpQualifier.staticval) := by
  refine ⟨?_, ?_, ?_, ?_⟩
  · intro h; simp [exitConcrete, h]
  · intro h1 h2; simp [exitConcrete, h1, h2]
  · intro h1 h2 h3; simp [exitConcrete, h1, h2, h3]
  · intro h1 h2 h3; simp [exitConcrete, h1, h2, h3]

/-- Witness for C2: an always-true action predicate at the empty effect. -/
theorem c2_concrete_classification_witness :
    exitConcrete (fun _ => true) (fun _ => false) (fun _ => false) OpQualifier.staticval
      { read := Variables.concrete [], update := Variables.concrete [] } =
      moreGeneralMode OpQualifier.staticval OpQualifier.action :=
  (c2_concrete_classification (fun _ => true) (fun _ => false) (fun _ => false)
    OpQualifier.staticval { read := Variables.concrete [], update := Variables.concrete [] }).1 rfl

/-- C10 counterexample: a structured pass-failure whose checking-result tag is
`RuntimeError` makes `check` raise an uncontrolled fault (a thrown internal
error) instead of returning a value on the result type, contradicting the
claim's "for every response … never raises an uncontrolled fault". -/
theorem c10_counterexample :
    check c10Bad = Except.error "internal error: unhandled verification error RuntimeError" ∧
    isOkE (check c10Bad) = false := by
  exact ⟨rfl, rfl⟩

/-- C10 amended: a success response yields the success value, an
unexpected-error failure yields a failure value carrying the raw diagnostic
message, a structured pass-failure tagged counterexample-found or deadlock
yields a failure value carrying the corresponding explanation and the
associated traces, and any other error type yields a failure value carrying
the tag and raw payload; but a structured pass-failure with any other
checking-result tag raises an internal error, so the no-fault guarantee holds
only for the enumerated response forms. -/
theorem c10_check_responses (et : String) (d : FailData) :
    (check RunResponse.success = Except.ok (Sum.inr ())) ∧
    (check (RunResponse.failure "UNEXPECTED" d) =
       Except.ok (Sum.inl { explanation := d.msg, errors := [], traces := none })) ∧
    (d.pass_name = "BoundedChecker" → d.checking_result = "Error" →
       check (RunResponse.failure "PASS_FAILURE" d) =
         Except.ok (Sum.inl { explanation := "found a counterexample", errors := [],
                              traces := some d.counterexamples })) ∧
    (d.pass_name = "BoundedChecker" → d.checking_result = "Deadlock" →
       check (RunResponse.failure "PASS_FAILURE" d) =
         Except.ok (Sum.inl { explanation := "reached a deadlock", errors := [],
                              traces := some d.counterexamples })) ∧
    (et ≠ "UNEXPECTED" → et ≠ "PASS_FAILURE" →
       check (RunResponse.failure et d) =
         Except.ok (Sum.inl { explanation := et ++ ": " ++ d.raw, errors := [], traces := none })) ∧
    (d.pass_name = "BoundedChecker" → d.checking_result ≠ "Error" →
       d.checking_result ≠ "Deadlock" →
       check (RunResponse.failure "PASS_FAILURE" d) =
         Except.error ("internal error: unhandled verification error " ++ d.checking_result)) := by
  refine ⟨rfl, ?_, ?_, ?_, ?_, ?_⟩
  · simp [check]
  · intro h1 h2; simp [check, handleVerificationFailure, h1, h2]
  · intro h1 h2; simp [check, handleVerificationFailure, h1, h2]
  · intro h1 h2; simp [check, h1, h2]
  · intro h1 h2 h3; simp [check, handleVerificationFailure, h1, h2, h3]

/-- Witness for C10's amended theorem: a counterexample-found pass-failure. -/
theorem c10_check_responses_witness :
    check (RunResponse.failure "PASS_FAILURE"
        { raw := "raw", msg := "m", pass_name := "BoundedChecker",
          checking_result := "Error", counterexamples := ["t1"] }) =
      Except.ok (Sum.inl { explanation := "found a counterexample", errors := [],
                           traces := some ["t1"] }) :=
  (c10_check_responses "X"
    { raw := "raw", msg := "m", pass_name := "BoundedChecker",
      checking_result := "Error", counterexamples := ["t1"] }).2.2.1 rfl rfl

/- A concrete-node accumulator makes `exitArrow` a no-op. -/
theorem exitArrow_skip (m : OpQualifier) (ps : List Effect) (r : Effect)
    (hm : isConcreteMode m = true) : exitArrow m ps r = Except.ok m := by
  have h1 : m ≠ OpQualifier.staticdef := by cases m <;> simp_all [isConcreteMode]
  have h2 : m ≠ OpQualifier.def_ := by cases m <;> simp_all [isConcreteMode]
  simp [exitArrow, h1, h2]

/- `exitConcrete` keeps the accumulator among the four concrete-node modes. -/
theorem exitConcrete_concrete (pA pT pS : ConcreteEffect → Bool) (m : OpQualifier)
    (ce : ConcreteEffect) (hm : isConcreteMode m = true) :
    isConcreteMode (exitConcrete pA pT pS m ce) = true := by
  unfold exitConcrete
  cases hA : pA ce <;> cases hT : pT ce <;> cases hS : pS ce <;>
    simp only [hA, hT, hS, if_true, if_false, Bool.false_eq_true, Bool.true_eq_false, ite_true,
      ite_false] <;>
    exact mG_concrete m _ hm (by decide)

/- From any accumulator that a concrete node can produce, the walk never
faults and coincides with the fold in which `exitArrow` never fires. -/
mutual
theorem walkEffect_eq_fold (pA pT pS : ConcreteEffect → Bool) (m : OpQualifier)
    (hm : isConcreteMode m = true) (e : Effect) :
    walkEffect pA pT pS m e = Except.ok (foldConcrete pA pT pS m e) ∧
    isConcreteMode (foldConcrete pA pT pS m e) = true :=
  match e with
  | Effect.concrete ce => by
    refine ⟨by simp [walkEffect, foldConcrete], exitConcrete_concrete pA pT pS m ce hm⟩
  | Effect.arrow ps r => by
    have h1 := walkParams_eq_fold pA pT pS m hm ps
    have h2 := walkEffect_eq_fold pA pT pS (foldConcreteL pA pT pS m ps) h1.2 r
    refine ⟨?_, by simpa [foldConcrete] using h2.2⟩
    simp only [walkEffect, h1.1, h2.1, foldConcrete]
    exact exitArrow_skip _ ps r h2.2

theorem walkParams_eq_fold (pA pT pS : ConcreteEffect → Bool) (m : OpQualifier)
    (hm : isConcreteMode m = true) (es : List Effect) :
    walkParams pA pT pS m es = Except.ok (foldConcreteL pA pT pS m es) ∧
    isConcreteMode (foldConcreteL pA pT pS m es) = true :=
  match es with
  | [] => by exact ⟨by simp [walkParams, foldConcreteL], by simpa [foldConcreteL] using hm⟩
  | e :: es2 => by
    have h1 := walkEffect_eq_fold pA pT pS m hm e
    have h2 := walkParams_eq_fold pA pT pS (foldConcrete pA pT pS m e) h1.2 es2
    refine ⟨?_, by simpa [foldConcreteL] using h2.2⟩
    simp only [walkParams, h1.1, foldConcreteL, h2.1]
end

/-- C9: folded from the initial accumulator `staticval`, the walk of any
effect tree never faults and equals the fold in which the `exitArrow` hook
never fires (its body is guarded on an accumulator of `staticdef` or `def`,
which concrete nodes can never produce, so the accumulator is never
`staticdef` or `def` when an `ArrowEffect` node is exited), and the reducer's
output lies in {staticval, val, action, temporal}. -/
theorem c9_arrow_rule_dead (pA pT pS : ConcreteEffect → Bool) (e : Effect) :
    walkEffect pA pT pS OpQualifier.staticval e =
      Except.ok (foldConcrete pA pT pS OpQualifier.staticval e) ∧
    isConcreteMode (foldConcrete pA pT pS OpQualifier.staticval e) = true :=
  walkEffect_eq_fold pA pT pS OpQualifier.staticval rfl e

/-- C4: evaluation at the failing input.  `c4Arrow` is an arrow effect whose
result reads the state variable `x`, absent from every parameter's read set,
and whose single parameter's concrete sub-effect classifies as `staticval`
(third conjunct); yet the reducer's output is `val`, not `def` as the claim
states: the result's own concrete node raises the accumulator to `val`
(second conjunct shows the state-read predicate holds there), so the
`staticdef`/`def` guard of the arrow rule fails and the promotion never
executes. -/
theorem c4_arrow_promotion_dead :
    walkEffect specIsAction specIsTemporal specIsState OpQualifier.staticval c4Arrow =
      Except.ok OpQualifier.val ∧
    specIsState { read := cxVarX, update := cxNoVars } = true ∧
    exitConcrete specIsAction specIsTemporal specIsState OpQualifier.staticval
      { read := cxNoVars, update := cxNoVars } = OpQualifier.staticval := by
  exact ⟨rfl, rfl, rfl⟩

/- Membership after a JS `Set.add`. -/
theorem setAdd_mem (acc : List Variables) (w v : Variables) (h : v ∈ setAdd acc w) :
    v ∈ acc ∨ v = w := by
  unfold setAdd at h
  split at h
  · exact Or.inl h
  · rcases List.mem_append.mp h with h1 | h1
    · exact Or.inl h1
    · exact Or.inr (List.mem_singleton.mp h1)

/- Every payload collected by the parameter loop is a single concrete
payload: union-shaped reads either abort the collection or add nothing. -/
theorem collect_concrete (ps : List Effect) : ∀ (acc P : List Variables),
    collectParamReads acc ps = Except.ok P →
    (∀ v ∈ acc, ∃ xs, v = Variables.concrete xs) →
    ∀ v ∈ P, ∃ xs, v = Variables.concrete xs := by
  induction ps with
  | nil =>
    intro acc P h hacc
    simp only [collectParamReads, Except.ok.injEq] at h
    exact h ▸ hacc
  | cons p ps ih =>
    intro acc P h hacc
    cases p with
    | concrete ce =>
      rcases ce with ⟨rd, up⟩
      cases rd with
      | union vs =>
        simp only [collectParamReads] at h
        by_cases hv : vs.isEmpty
        · rw [if_pos hv] at h
          exact ih acc P h hacc
        · rw [if_neg hv] at h
          cases h
      | concrete xs =>
        simp only [collectParamReads] at h
        refine ih _ P h ?_
        intro v hv
        rcases setAdd_mem acc (Variables.concrete xs) v hv with h1 | h1
        · exact hacc v h1
        · exact ⟨xs, h1⟩
    | arrow ps2 r2 =>
      simp only [collectParamReads] at h
      exact ih acc P h hacc

/- A set of single concrete payloads never contains a union-shaped payload. -/
theorem setHas_union_false (P : List Variables) (vs : List Variables)
    (h : ∀ v ∈ P, ∃ xs, v = Variables.concrete xs) :
    setHas P (Variables.union vs) = false := by
  simp only [setHas, List.any_eq_false]
  intro w hw
  obtain ⟨xs, rfl⟩ := h w hw
  simp [vbeq]

/-- C3 counterexample: with accumulator `staticdef`, parameters whose single
concrete reads are `x` and `y`, and a union-shaped result read over `x` and
`y` — all of whose members are in the parameter-reachable set — the claim
requires `staticdef`, but the code yields `def`: the second branch re-tests
the union payload itself against the collected set, and the collected set
only ever holds single payloads. -/
theorem c3_counterexample :
    exitArrow OpQualifier.staticdef c3Params c3ResultUnion = Except.ok OpQualifier.def_ ∧
    (Except.ok OpQualifier.def_ : Except String OpQualifier) ≠
      Except.ok OpQualifier.staticdef := by
  exact ⟨rfl, by simp⟩

/-- C3 amended: when the accumulator is `staticdef` or `def` and the
parameter-read collection succeeds with set `P` (which requires that no
concrete parameter has a nonempty union-shaped read — there the code faults,
invoking its member-expansion callback unbound), the accumulator after the
node is `def` exactly when the result effect is concrete and its read payload
is union-shaped (regardless of whether its members are in `P`) or is a single
payload absent from `P`; it is `staticdef` when the result is an arrow or a
single payload present in `P`. -/
theorem c3_arrow_rule (m : OpQualifier) (ps : List Effect) (r : Effect) (P : List Variables)
    (hm : m = OpQualifier.staticdef ∨ m = OpQualifier.def_)
    (hp : collectParamReads [] ps = Except.ok P) :
    (∀ ce xs, r = Effect.concrete ce → ce.read = Variables.concrete xs →
       exitArrow m ps r =
         Except.ok (if setHas P (Variables.concrete xs) then OpQualifier.staticdef
                    else OpQualifier.def_)) ∧
    (∀ ce vs, r = Effect.concrete ce → ce.read = Variables.union vs →
       exitArrow m ps r = Except.ok OpQualifier.def_) ∧
    (∀ ps2 r2, r = Effect.arrow ps2 r2 → exitArrow m ps r = Except.ok OpQualifier.staticdef) := by
  have hguard : ¬(m ≠ OpQualifier.staticdef ∧ m ≠ OpQualifier.def_) := by
    rcases hm with rfl | rfl <;> simp
  have hPc : ∀ v ∈ P, ∃ xs, v = Variables.concrete xs :=
    collect_concrete ps [] P hp (by intro v hv; cases hv)
  refine ⟨?_, ?_, ?_⟩
  · rintro ⟨rd, up⟩ xs rfl hrd
    cases hrd
    simp only [exitArrow, if_neg hguard, hp]
    cases hs : setHas P (Variables.concrete xs) <;> simp [hs]
  · rintro ⟨rd, up⟩ vs rfl hrd
    cases hrd
    simp only [exitArrow, if_neg hguard, hp]
    cases ha : vs.all (fun v => setHas P v)
    · simp [ha]
    · simp [ha, setHas_union_false P vs hPc]
  · rintro ps2 r2 rfl
    simp only [exitArrow, if_neg hguard, hp]

/-- Witness for C3's amended theorem: a single concrete result read `z`,
absent from the parameter-reachable set of `c3Params`. -/
theorem c3_arrow_rule_witness :
    exitArrow OpQualifier.staticdef c3Params
        (Effect.concrete { read := Variables.concrete ["z"], update := cxNoVars }) =
      Except.ok (if setHas c3P (Variables.concrete ["z"]) then OpQualifier.staticdef
                 else OpQualifier.def_) :=
  (c3_arrow_rule OpQualifier.staticdef c3Params
    (Effect.concrete { read := Variables.concrete ["z"], update := cxNoVars }) c3P
    (Or.inl rfl) rfl).1
    { read := Variables.concrete ["z"], update := cxNoVars } ["z"] rfl rfl

/- A JS `Map.set` never leaves the map empty. -/
theorem mapSet_isEmpty {α : Type} (l : List (Nat × α)) (k : Nat) (v : α) :
    (mapSet l k v).isEmpty = false := by
  cases l with
  | nil => rfl
  | cons a rest =>
    rcases a with ⟨k0, v0⟩
    unfold mapSet
    split <;> rfl

/- Any successful `exitOpDef` step leaves the accumulator reset to
`staticval`. -/
theorem exitOpDef_cm (pA pT pS : ConcreteEffect → Bool) (effects : List (Nat × Effect))
    (s : ModeCheckerState) (d : TntOpDef) (s1 : ModeCheckerState)
    (h : exitOpDef pA pT pS effects s d = Except.ok s1) :
    s1.currentMode = OpQualifier.staticval := by
  unfold exitOpDef at h
  split at h
  · cases h
  · split at h
    · cases h
    · dsimp only at h
      split at h
      · cases h; rfl
      · split at h
        · cases h; rfl
        · split at h
          · cases h; rfl
          · cases h; rfl

/- Characterization of one `exitOpDef` step from a fresh accumulator when the
effect is present. -/
theorem exitOpDef_ok (pA pT pS : ConcreteEffect → Bool) (effects : List (Nat × Effect))
    (s : ModeCheckerState) (d : TntOpDef)
    (hm : s.currentMode = OpQualifier.staticval)
    (hl : (mapLookup effects d.id).isSome = true) :
    ∃ s1, exitOpDef pA pT pS effects s d = Except.ok s1 ∧
      s1.currentMode = OpQualifier.staticval ∧
      s1.errors.isEmpty = (s.errors.isEmpty && !(defProducesError pA pT pS effects d)) := by
  obtain ⟨eff, heff⟩ := Option.isSome_iff_exists.mp hl
  have hw := walkEffect_eq_fold pA pT pS OpQualifier.staticval rfl eff
  have hpe : defProducesError pA pT pS effects d =
      ((foldConcrete pA pT pS OpQualifier.staticval eff != d.qualifier) &&
       (moreGeneralMode (foldConcrete pA pT pS OpQualifier.staticval eff) d.qualifier ==
        foldConcrete pA pT pS OpQualifier.staticval eff)) := by
    unfold defProducesError
    rw [heff]
  simp only [exitOpDef, heff, hm, hw.1]
  by_cases h1 : foldConcrete pA pT pS OpQualifier.staticval eff = d.qualifier
  · rw [if_pos h1]
    have hpd : defProducesError pA pT pS effects d = false := by
      rw [hpe, h1]
      simp
    refine ⟨_, rfl, rfl, ?_⟩
    rw [hpd]
    simp
  · rw [if_neg h1]
    by_cases h2 : moreGeneralMode (foldConcrete pA pT pS OpQualifier.staticval eff) d.qualifier =
        foldConcrete pA pT pS OpQualifier.staticval eff
    · rw [if_pos h2]
      have hpd : defProducesError pA pT pS effects d = true := by
        rw [hpe]
        simp [h1, h2]
      refine ⟨_, rfl, rfl, ?_⟩
      rw [hpd, mapSet_isEmpty]
      simp
    · rw [if_neg h2]
      have hpd : defProducesError pA pT pS effects d = false := by
        rw [hpe]
        simp [h2]
      by_cases h3 : moreGeneralMode (foldConcrete pA pT pS OpQualifier.staticval eff) d.qualifier =
          d.qualifier
      · rw [if_pos h3]
        refine ⟨_, rfl, rfl, ?_⟩
        rw [hpd]
        simp
      · rw [if_neg h3]
        refine ⟨_, rfl, rfl, ?_⟩
        rw [hpd]
        simp

/- Characterization of the whole walk from a fresh accumulator when every
definition's effect is present. -/
theorem runDefs_ok (pA pT pS : ConcreteEffect → Bool) (effects : List (Nat × Effect))
    (ds : List TntOpDef) : ∀ (s : ModeCheckerState), s.currentMode = OpQualifier.staticval →
    (∀ d ∈ ds, (mapLookup effects d.id).isSome = true) →
    ∃ s1, runDefs pA pT pS effects s ds = Except.ok s1 ∧
      s1.currentMode = OpQualifier.staticval ∧
      s1.errors.isEmpty =
        (s.errors.isEmpty && !(ds.any (fun d => defProducesError pA pT pS effects d))) := by
  induction ds with
  | nil =>
    intro s hm _
    exact ⟨s, rfl, hm, by simp⟩
  | cons d ds ih =>
    intro s hm hall
    obtain ⟨s1, he, hcm1, herr1⟩ := exitOpDef_ok pA pT pS effects s d hm (hall d (by simp))
    obtain ⟨s2, hr, hcm2, herr2⟩ := ih s1 hcm1 (fun d2 hd2 => hall d2 (by simp [hd2]))
    refine ⟨s2, ?_, hcm2, ?_⟩
    · unfold runDefs
      rw [he]
      exact hr
    · rw [herr2, herr1, List.any_cons]
      cases s.errors.isEmpty <;>
        cases hpd : defProducesError pA pT pS effects d <;>
        cases hrest : ds.any (fun d2 => defProducesError pA pT pS effects d2) <;>
        simp [hpd, hrest]

/- The walk faults at the first definition whose effect is missing. -/
theorem runDefs_missing (pA pT pS : ConcreteEffect → Bool) (effects : List (Nat × Effect))
    (ds1 : List TntOpDef) : ∀ (d : TntOpDef) (ds2 : List TntOpDef) (s : ModeCheckerState),
    s.currentMode = OpQualifier.staticval →
    (∀ d2 ∈ ds1, (mapLookup effects d2.id).isSome = true) →
    mapLookup effects d.id = none →
    runDefs pA pT pS effects s (ds1 ++ d :: ds2) =
      Except.error ("effect not found for definition " ++ d.name) := by
  induction ds1 with
  | nil =>
    intro d ds2 s _ _ hmiss
    simp only [List.nil_append, runDefs, exitOpDef, hmiss]
  | cons d1 ds1 ih =>
    intro d ds2 s hm hall hmiss
    obtain ⟨s1, he, hcm1, _⟩ := exitOpDef_ok pA pT pS effects s d1 hm (hall d1 (by simp))
    rw [List.cons_append]
    unfold runDefs
    rw [he]
    exact ih d ds2 s1 hcm1 (fun d2 h2 => hall d2 (by simp [h2])) hmiss

/- The accumulator is reset after every successful walk. -/
theorem runDefs_cm (pA pT pS : ConcreteEffect → Bool) (effects : List (Nat × Effect))
    (ds : List TntOpDef) : ∀ (s s1 : ModeCheckerState), s.currentMode = OpQualifier.staticval →
    runDefs pA pT pS effects s ds = Except.ok s1 → s1.currentMode = OpQualifier.staticval := by
  induction ds with
  | nil =>
    intro s s1 hm h
    injection h with h
    rw [← h]
    exact hm
  | cons d ds ih =>
    intro s s1 hm h
    unfold runDefs at h
    cases he : exitOpDef pA pT pS effects s d with
    | error msg => rw [he] at h; cases h
    | ok s2 =>
      rw [he] at h
      exact ih s2 s1 (exitOpDef_cm pA pT pS effects s d s2 he) h

/-- C1: for a definition whose effect is present, the checker accepts with no
output when the reduced mode equals the declared qualifier; otherwise, with
`g = moreGeneralMode inferred declared`, it records exactly one error for the
definition — keyed by its identifier, the message naming the inferred mode as
expected and the declared qualifier as found — when `g` equals the inferred
mode, and records exactly one suggestion proposing the inferred mode when `g`
equals the declared qualifier; the two branches are exhaustive since
`moreGeneralMode` always returns one of its arguments. -/
theorem c1_definition_checker (pA pT pS : ConcreteEffect → Bool)
    (effects : List (Nat × Effect)) (s : ModeCheckerState) (d : TntOpDef)
    (eff : Effect) (inferred : OpQualifier)
    (hm : s.currentMode = OpQualifier.staticval)
    (hl : mapLookup effects d.id = some eff)
    (hw : walkEffect pA pT pS OpQualifier.staticval eff = Except.ok inferred) :
    (inferred = d.qualifier →
       exitOpDef pA pT pS effects s d =
         Except.ok { s with currentMode := OpQualifier.staticval }) ∧
    (inferred ≠ d.qualifier → moreGeneralMode inferred d.qualifier = inferred →
       exitOpDef pA pT pS effects s d = Except.ok { s with
         currentMode := OpQualifier.staticval,
         errors := mapSet s.errors d.id
           { location := "Checking modes for " ++ definitionToString d,
             message := "Expected " ++ inferred.toStr ++ " mode, found: " ++
               d.qualifier.toStr,
             children := [] } }) ∧
    (inferred ≠ d.qualifier → moreGeneralMode inferred d.qualifier = d.qualifier →
       exitOpDef pA pT pS effects s d = Except.ok { s with
         currentMode := OpQualifier.staticval,
         suggestions := mapSet s.suggestions d.id inferred }) ∧
    (moreGeneralMode inferred d.qualifier = inferred ∨
     moreGeneralMode inferred d.qualifier = d.qualifier) := by
  refine ⟨?_, ?_, ?_, mG_or inferred d.qualifier⟩
  · intro h1
    simp only [exitOpDef, hl, hm, hw]
    rw [if_pos h1]
  · intro h1 h2
    simp only [exitOpDef, hl, hm, hw]
    rw [if_neg h1, if_pos h2]
  · intro h1 h2
    have h3 : moreGeneralMode inferred d.qualifier ≠ inferred := by
      rw [h2]
      exact fun hh => h1 hh.symm
    simp only [exitOpDef, hl, hm, hw]
    rw [if_neg h1, if_neg h3, if_pos h2]

/-- Witness for C1: `cxDef1` reads `x` but is declared `staticval`; the
inferred mode `val` is the more general one, so exactly one error is
recorded. -/
theorem c1_definition_checker_witness :
    exitOpDef specIsAction specIsTemporal specIsState cxEffects initialState cxDef1 =
      Except.ok { initialState with
        currentMode := OpQualifier.staticval,
        errors := mapSet initialState.errors cxDef1.id
          { location := "Checking modes for " ++ definitionToString cxDef1,
            message := "Expected " ++ OpQualifier.val.toStr ++ " mode, found: " ++
              cxDef1.qualifier.toStr,
            children := [] } } :=
  (c1_definition_checker specIsAction specIsTemporal specIsState cxEffects initialState cxDef1
    cxReadX OpQualifier.val rfl rfl rfl).2.1 (by decide) (by decide)

/-- C5: when every definition has an effect entry, `checkModes` never faults;
it returns failure carrying the (non-empty) error map exactly when at least
one definition produced an error, and otherwise returns success carrying the
suggestion map; on a module with zero definitions it returns success with an
empty suggestion map; the result is one of the two forms, never both, since
`Sum.inl` and `Sum.inr` are disjoint. -/
theorem c5_module_driver (pA pT pS : ConcreteEffect → Bool) (tntModule : TntModule)
    (effects : List (Nat × Effect))
    (h : ∀ d ∈ tntModule.defs, (mapLookup effects d.id).isSome = true) :
    isOkE (checkModes pA pT pS tntModule effects) = true ∧
    ((∃ errs, checkModes pA pT pS tntModule effects = Except.ok (Sum.inl errs) ∧ errs ≠ []) ↔
       tntModule.defs.any (fun d => defProducesError pA pT pS effects d) = true) ∧
    ((∃ suggs, checkModes pA pT pS tntModule effects = Except.ok (Sum.inr suggs)) ↔
       tntModule.defs.any (fun d => defProducesError pA pT pS effects d) = false) ∧
    (tntModule.defs = [] → checkModes pA pT pS tntModule effects = Except.ok (Sum.inr [])) := by
  obtain ⟨s1, hr, hcm, herr⟩ := runDefs_ok pA pT pS effects tntModule.defs initialState rfl h
  have herr2 : s1.errors.isEmpty =
      !(tntModule.defs.any fun d => defProducesError pA pT pS effects d) := by
    rw [herr]
    rfl
  cases hany : tntModule.defs.any (fun d => defProducesError pA pT pS effects d) with
  | false =>
    have hcond : s1.errors.isEmpty = true := by rw [herr2, hany]; rfl
    have hchk : checkModes pA pT pS tntModule effects = Except.ok (Sum.inr s1.suggestions) := by
      simp [checkModes, hr, hcond]
    refine ⟨by rw [hchk]; rfl, ?_, ?_, ?_⟩
    · rw [hchk]
      simp
    · rw [hchk]
      simp
    · intro h0
      rw [h0] at hr
      simp only [runDefs, Except.ok.injEq] at hr
      rw [hchk, ← hr]
      rfl
  | true =>
    have hcond : s1.errors.isEmpty = false := by rw [herr2, hany]; rfl
    have hchk : checkModes pA pT pS tntModule effects = Except.ok (Sum.inl s1.errors) := by
      simp [checkModes, hr, hcond]
    have hne : s1.errors ≠ [] := by
      intro hnil
      rw [hnil] at hcond
      cases hcond
    refine ⟨by rw [hchk]; rfl, ?_, ?_, ?_⟩
    · rw [hchk]
      constructor
      · intro _
        rfl
      · intro _
        exact ⟨s1.errors, rfl, hne⟩
    · rw [hchk]
      simp
    · intro h0
      rw [h0] at hany
      cases hany

/-- Witness for C5: a one-definition module with a mode error yields a
success-shaped run (`isOkE`), and the zero-definition module yields success
with an empty suggestion map. -/
theorem c5_module_driver_witness :
    isOkE (checkModes specIsAction specIsTemporal specIsState cxModule cxEffects) = true ∧
    checkModes specIsAction specIsTemporal specIsState cxEmptyModule cxEffects =
      Except.ok (Sum.inr []) :=
  ⟨(c5_module_driver specIsAction specIsTemporal specIsState cxModule cxEffects (by decide)).1,
   (c5_module_driver specIsAction specIsTemporal specIsState cxEmptyModule cxEffects
     (by decide)).2.2.2 rfl⟩

/-- C6: a definition whose identifier has no entry in the effect map makes
`checkModes` fail fatally with an internal-consistency error naming that
definition (the first such in document order), returning neither map; when
every definition has an entry the walk is exhaustive and the run completes
without faulting. -/
theorem c6_missing_effect (pA pT pS : ConcreteEffect → Bool) (tntModule : TntModule)
    (effects : List (Nat × Effect)) :
    (∀ (ds1 : List TntOpDef) (d : TntOpDef) (ds2 : List TntOpDef),
       tntModule.defs = ds1 ++ d :: ds2 →
       (∀ d2 ∈ ds1, (mapLookup effects d2.id).isSome = true) →
       mapLookup effects d.id = none →
       checkModes pA pT pS tntModule effects =
         Except.error ("effect not found for definition " ++ d.name)) ∧
    ((∀ d ∈ tntModule.defs, (mapLookup effects d.id).isSome = true) →
       isOkE (checkModes pA pT pS tntModule effects) = true) := by
  constructor
  · intro ds1 d ds2 h0 hpre hmiss
    have hrd := runDefs_missing pA pT pS effects ds1 d ds2 initialState rfl hpre hmiss
    simp only [checkModes, h0, hrd]
  · intro hall
    obtain ⟨s1, hr, _, _⟩ := runDefs_ok pA pT pS effects tntModule.defs initialState rfl hall
    simp only [checkModes, hr]
    split <;> rfl

/-- Witness for C6: the module whose only definition is missing from the
effect map faults naming it, and the fully covered module completes. -/
theorem c6_missing_effect_witness :
    checkModes specIsAction specIsTemporal specIsState cxMissingModule cxEffects =
      Except.error ("effect not found for definition " ++ cxDef2.name) ∧
    isOkE (checkModes specIsAction specIsTemporal specIsState cxModule cxEffects) = true :=
  ⟨(c6_missing_effect specIsAction specIsTemporal specIsState cxMissingModule cxEffects).1
      [] cxDef2 [] rfl (by simp) rfl,
   (c6_missing_effect specIsAction specIsTemporal specIsState cxModule cxEffects).2 (by decide)⟩

/-- C8: `checkModes` is a pure function of its two inputs — two invocations
with the same pair are the same value — and within one invocation the
accumulator discipline holds: the fresh visitor starts at `staticval` and
every successful walk leaves the accumulator reset to `staticval`, so no
reducer state leaks between definitions or between calls. -/
theorem c8_deterministic (pA pT pS : ConcreteEffect → Bool) (tntModule : TntModule)
    (effects : List (Nat × Effect)) :
    checkModes pA pT pS tntModule effects = checkModes pA pT pS tntModule effects ∧
    (∀ s1, runDefs pA pT pS effects initialState tntModule.defs = Except.ok s1 →
       s1.currentMode = OpQualifier.staticval) :=
  ⟨rfl, fun s1 h => runDefs_cm pA pT pS effects tntModule.defs initialState s1 rfl h⟩

/-- Witness for C8 on the zero-definition module. -/
theorem c8_deterministic_witness :
    (checkModes specIsAction specIsTemporal specIsState cxEmptyModule cxEffects =
       checkModes specIsAction specIsTemporal specIsState cxEmptyModule cxEffects) ∧
    initialState.currentMode = OpQualifier.staticval :=
  ⟨(c8_deterministic specIsAction specIsTemporal specIsState cxEmptyModule cxEffects).1,
   (c8_deterministic specIsAction specIsTemporal specIsState cxEmptyModule cxEffects).2
     initialState rfl⟩
